import Mathlib

/-!
Verification of the core distributed machinery of the CN251 P2P file-sharing
assignment: the registry service (`server.py`), the fetch-session manager
(`optimizations/fetch_manager.py`), the peer byte-streaming server
(`client.py`, `PeerServer.handle_peer`), and the adaptive heartbeat controller
(`optimizations/adaptive_heartbeat.py`).

Python dictionaries are embedded as association lists with Python-dict update
semantics: updating an existing key replaces the value in place (preserving
iteration order), inserting a new key appends it at the end.  Wall-clock time
(`time.time()`) is passed to each operation as an explicit `now : Nat`
parameter.  Message fields obtained with `data.get(...)` are `Option`-typed;
Python truthiness of a string (`if hostname:`) is `truthyS`, of a port number
`truthyN`.
-/

namespace P2P

/-- Lookup in an association list (Python `d[k]` / `d.get(k)`): first entry
with the given key. -/
def alookup {α β : Type} [DecidableEq α] (k : α) : List (α × β) → Option β
  | [] => none
  | (a, b) :: rest => if a = k then some b else alookup k rest

/-- Python dict assignment `d[k] = v`: replace in place if the key exists,
otherwise append. -/
def aupsert {α β : Type} [DecidableEq α] (k : α) (v : β) : List (α × β) → List (α × β)
  | [] => [(k, v)]
  | (a, b) :: rest => if a = k then (a, v) :: rest else (a, b) :: aupsert k v rest

/-- Python in-place field mutation `d[k].field = ...`: apply `f` to the value
stored at `k` (no-op when the key is absent). -/
def amodify {α β : Type} [DecidableEq α] (k : α) (f : β → β) : List (α × β) → List (α × β)
  | [] => []
  | (a, b) :: rest => if a = k then (a, f b) :: rest else (a, b) :: amodify k f rest

/-- Python `d.pop(k, None)`: drop the entry with the given key. -/
def aremove {α β : Type} [DecidableEq α] (k : α) : List (α × β) → List (α × β)
  | [] => []
  | (a, b) :: rest => if a = k then rest else (a, b) :: aremove k rest

/-- Python truthiness of an optional string: `None` and `""` are falsy. -/
def truthyS : Option String → Bool
  | none => false
  | some s => s != ""

/-- Python truthiness of an optional number: `None` and `0` are falsy. -/
def truthyN : Option Nat → Bool
  | none => false
  | some n => n != 0

/-! ## Registry data model (`server.py` lines 16-33) -/

/-- One file entry inside a host record
(`server.py` registry comment and lines 74-80, 103-108). -/
structure FileEntry where
  size : Nat
  modified : Nat
  published_at : Option Nat
  is_published : Bool
deriving DecidableEq, Repr

/-- The files map of a host.  PUBLISH stores the raw `data.get('fname')`
value as the key, which may be Python `None`, hence keys are `Option String`. -/
abbrev FilesMap := List (Option String × FileEntry)

/-- One registered host (`server.py` lines 17-32): `addr` is split into
`ip` and `port`. -/
structure HostInfo where
  ip : String
  port : Nat
  display_name : String
  files : FilesMap
  last_seen : Nat
  connected_at : Nat
deriving DecidableEq, Repr

/-- The global `registry` dict, keyed by hostname. -/
abbrev Registry := List (String × HostInfo)

/-- One element of the `hosts` list answered to REQUEST
(`server.py` lines 138-146). -/
structure ReqHost where
  hostname : String
  display_name : String
  ip : String
  port : Nat
  size : Nat
  modified : Nat
  is_published : Bool
deriving DecidableEq, Repr

/-- One host's entry in the LIST snapshot (`server.py` lines 190-204). -/
structure SnapEntry where
  ip : String
  port : Nat
  display_name : String
  files : FilesMap
  last_seen : Nat
  connected_at : Nat
deriving DecidableEq, Repr

/-- Responses sent with `send_json` by `handle_conn`.  Each constructor
records the `status` string plus the action-specific payload fields. -/
inductive Resp where
  | ok
  | ack
  | error (reason : String)
  | found (hosts : List ReqHost)
  | notfound (hosts : List ReqHost)
  | okDiscover (files : FilesMap) (ip : String) (port : Nat)
  | alive
  | dead
  | okList (snapshot : List (String × SnapEntry))
deriving DecidableEq, Repr

/-! ## Registry operations (`server.py` `handle_conn`, one `def` per action) -/

/-- Fields of a REGISTER message after JSON parsing (`server.py` lines 60-63).
`files_metadata` is a JSON object, so its keys are genuine strings; the
per-file `meta.get(..., default)` defaulting of lines 76-79 is applied at the
parsing boundary, so each value is already a full `FileEntry`. -/
structure RegisterMsg where
  hostname : Option String
  port : Option Nat
  display_name : Option String
  files_metadata : List (String × FileEntry)
deriving DecidableEq, Repr

/-- Seeding of the `files` dict from the supplied metadata snapshot
(`server.py` lines 74-80): iterate in order, assigning each entry. -/
def seedFiles (meta : List (String × FileEntry)) : FilesMap :=
  meta.foldl (fun fs p => aupsert (some p.1) p.2 fs) []

/-- REGISTER handler (`server.py` lines 59-84).  `connIp` is `addr[0]` of the
TCP connection; `now` is `time.time()`. -/
def registerOp (connIp : String) (now : Nat) (msg : RegisterMsg) (r : Registry) :
    Registry × Resp :=
  if truthyS msg.hostname && truthyN msg.port then
    let h := msg.hostname.getD ""
    (aupsert h
      { ip := connIp
        port := msg.port.getD 0
        display_name := msg.display_name.getD h
        files := seedFiles msg.files_metadata
        last_seen := now
        connected_at := now } r, Resp.ok)
  else (r, Resp.error "bad register")

/-- PUBLISH handler (`server.py` lines 85-111).  `connIp`/`connPort` are the
TCP connection address used by the auto-create recovery branch (line 97);
`size` and `modified` carry the `data.get('size', 0)` /
`data.get('modified', time.time())` values. -/
def publishOp (connIp : String) (connPort : Nat) (now : Nat)
    (hostname? fname? : Option String) (size modified : Nat) (r : Registry) :
    Registry × Resp :=
  if truthyS hostname? = false then (r, Resp.error "missing hostname")
  else
    let h := hostname?.getD ""
    let r1 :=
      if (alookup h r).isSome then r
      else aupsert h
        { ip := connIp, port := connPort, display_name := h, files := []
          last_seen := now, connected_at := now } r
    (amodify h (fun info =>
      { info with
        files := aupsert fname?
          { size := size, modified := modified
            published_at := some now, is_published := true } info.files
        last_seen := now }) r1, Resp.ack)

/-- UNPUBLISH handler (`server.py` lines 112-127): soft delete, the entry is
kept with `is_published := false` and `published_at := none`. -/
def unpublishOp (now : Nat) (hostname? fname? : Option String) (r : Registry) :
    Registry × Resp :=
  if (truthyS hostname? && truthyS fname?) = false then
    (r, Resp.error "missing hostname or fname")
  else
    let h := hostname?.getD ""
    match alookup h r with
    | none => (r, Resp.error "file not found")
    | some info =>
      match alookup fname? info.files with
      | none => (r, Resp.error "file not found")
      | some _ =>
        (amodify h (fun info =>
          { info with
            files := amodify fname?
              (fun fe => { fe with is_published := false, published_at := none })
              info.files
            last_seen := now }) r, Resp.ack)

/-- The `hosts` list built by the REQUEST handler (`server.py` lines 132-146):
scan the registry in iteration order, keeping published matches. -/
def requestHosts (fname? : Option String) (r : Registry) : List ReqHost :=
  r.filterMap fun p =>
    match alookup fname? p.2.files with
    | some fe =>
      if fe.is_published then
        some
          { hostname := p.1
            display_name := p.2.display_name
            ip := p.2.ip
            port := p.2.port
            size := fe.size
            modified := fe.modified
            is_published := true }
      else none
    | none => none

/-- REQUEST handler (`server.py` lines 128-150). -/
def requestOp (fname? : Option String) (r : Registry) : Resp :=
  if truthyS fname? then
    let hosts := requestHosts fname? r
    if hosts.isEmpty then Resp.notfound hosts else Resp.found hosts
  else Resp.error "bad request"

/-- DISCOVER handler (`server.py` lines 151-164): only published files are
returned.  A missing `hostname` field (`None`) can never be a registry key. -/
def discoverOp (hname? : Option String) (r : Registry) : Resp :=
  match hname? with
  | none => Resp.error "unknown host"
  | some h =>
    match alookup h r with
    | some info =>
      Resp.okDiscover (info.files.filter fun q => q.2.is_published) info.ip info.port
    | none => Resp.error "unknown host"

/-- The caller-refresh step of the PING handler (`server.py` lines 168-170):
`if hostname and hostname in registry: registry[hostname]["last_seen"] = now`. -/
def pingRefresh (now : Nat) (connHostname : Option String) (r : Registry) :
    Registry :=
  if truthyS connHostname && (alookup (connHostname.getD "") r).isSome then
    amodify (connHostname.getD "") (fun info => { info with last_seen := now }) r
  else r

/-- The target-membership test of the PING handler (`server.py` line 172):
`if target in registry` — a missing field (`None`) is never a key. -/
def pingTargetAlive (target? : Option String) (r : Registry) : Bool :=
  match target? with
  | some t => (alookup t r).isSome
  | none => false

/-- PING handler (`server.py` lines 165-177).  `connHostname` is the
connection-local `hostname` variable (the caller's self identity, set by an
earlier REGISTER/PUBLISH/UNPUBLISH on the same connection). -/
def pingOp (now : Nat) (connHostname target? : Option String) (r : Registry) :
    Registry × Resp :=
  let r1 := pingRefresh now connHostname r
  (r1, if pingTargetAlive target? r1 then Resp.alive else Resp.dead)

/-- UNREGISTER handler (`server.py` lines 179-187). -/
def unregisterOp (hname? : Option String) (r : Registry) : Registry × Resp :=
  if truthyS hname? then (aremove (hname?.getD "") r, Resp.ok)
  else (r, Resp.error "bad unregister")

/-- The LIST snapshot (`server.py` lines 190-204): per host, address, display
name, published files only, and the two timestamps. -/
def listSnap (r : Registry) : List (String × SnapEntry) :=
  r.map fun p =>
    (p.1,
      { ip := p.2.ip
        port := p.2.port
        display_name := p.2.display_name
        files := p.2.files.filter fun q => q.2.is_published
        last_seen := p.2.last_seen
        connected_at := p.2.connected_at })

/-- LIST handler (`server.py` lines 188-205). -/
def listOp (r : Registry) : Resp :=
  Resp.okList (listSnap r)

/-- One pass of the inactivity sweep (`server.py` lines 213-222,
`cleanup_thread` body after the sleep): collect every host with
`now - last_seen > timeout` and pop each of them. -/
def cleanupOp (now timeout : Nat) (r : Registry) : Registry :=
  r.filter fun p => !(decide (now - p.2.last_seen > timeout))

/-- `CLIENT_INACTIVE_TIMEOUT` default from `config.py`. -/
def CLIENT_INACTIVE_TIMEOUT : Nat := 1200

/-! ## Fetch session manager (`optimizations/fetch_manager.py`)

The wall-clock/floating-point progress statistics (`speed_bps`,
`eta_seconds`, `elapsed_time`, `start_time`) are pure reporting derived from
`time.time()` floats and are not modelled; the state the claims are about is
`downloaded_size`, `total_size`, `status`, `error_message` and the file
handle. -/

/-- `FetchStatus` enum (`fetch_manager.py` lines 24-30). -/
inductive FetchStatus where
  | pending
  | connecting
  | downloading
  | completed
  | failed
deriving DecidableEq, Repr

/-- Error messages set on `FetchProgress.error_message`, modelled
structurally: `sizeMismatch expected got` stands for the f-string of
`fetch_manager.py` lines 184-187. -/
inductive FetchError where
  | sizeMismatch (expected got : Nat)
  | other (msg : String)
deriving DecidableEq, Repr

/-- `FetchProgress` dataclass (`fetch_manager.py` lines 33-46), without the
floating-point speed/ETA/elapsed statistics. -/
structure FetchProgress where
  file_name : String
  total_size : Nat
  downloaded_size : Nat
  status : FetchStatus
  peer_hostname : String
  peer_ip : String
  error_message : Option FetchError
deriving DecidableEq, Repr

/-- `FetchSession` state (`fetch_manager.py` lines 72-110).  The open file
handle is modelled by the flag `file_handle_open`
(`self.file_handle is not None`). -/
structure FetchSession where
  file_name : String
  total_size : Nat
  save_path : String
  chunk_size : Nat
  progress : FetchProgress
  file_handle_open : Bool
deriving DecidableEq, Repr

/-- `FetchSession.__init__` (`fetch_manager.py` lines 75-110). -/
def mkFetchSession (file_name : String) (total_size : Nat) (save_path : String)
    (peer_hostname peer_ip : String) (chunk_size : Nat) : FetchSession :=
  { file_name := file_name
    total_size := total_size
    save_path := save_path
    chunk_size := chunk_size
    progress :=
      { file_name := file_name
        total_size := total_size
        downloaded_size := 0
        status := FetchStatus.pending
        peer_hostname := peer_hostname
        peer_ip := peer_ip
        error_message := none }
    file_handle_open := false }

/-- `FetchSession.start` (`fetch_manager.py` lines 112-119): open the
destination, transition to `DOWNLOADING`. -/
def FetchSession.start (s : FetchSession) : FetchSession :=
  { s with
    file_handle_open := true
    progress := { s.progress with status := FetchStatus.downloading } }

/-- `FetchSession.write_chunk` (`fetch_manager.py` lines 121-164): raises
`RuntimeError("Fetch session not started")` when no handle is open, otherwise
writes the chunk, adds its length to `downloaded_size` and returns it.
The raised exception is the `Except.error` value; the session state is
returned alongside (unchanged in the error case, since the check precedes
every mutation). -/
def FetchSession.write_chunk (s : FetchSession) (chunkLen : Nat) :
    FetchSession × Except String Nat :=
  if s.file_handle_open = false then
    (s, Except.error "Fetch session not started")
  else
    ({ s with
        progress :=
          { s.progress with
            downloaded_size := s.progress.downloaded_size + chunkLen } },
      Except.ok chunkLen)

/-- `FetchSession.complete` (`fetch_manager.py` lines 166-191): close the
handle, then verify `downloaded_size == total_size`. -/
def FetchSession.complete (s : FetchSession) : FetchSession × Bool :=
  let s1 := { s with file_handle_open := false }
  if s1.progress.downloaded_size ≠ s1.total_size then
    ({ s1 with
        progress :=
          { s1.progress with
            status := FetchStatus.failed
            error_message :=
              some (FetchError.sizeMismatch s1.total_size
                s1.progress.downloaded_size) } },
      false)
  else
    ({ s1 with
        progress := { s1.progress with status := FetchStatus.completed } },
      true)

/-- `FetchSession.fail` (`fetch_manager.py` lines 193-201). -/
def FetchSession.fail (s : FetchSession) (msg : String) : FetchSession :=
  { s with
    file_handle_open := false
    progress :=
      { s.progress with
        status := FetchStatus.failed
        error_message := some (FetchError.other msg) } }

/-- `FetchSession.cleanup` (`fetch_manager.py` lines 208-213). -/
def FetchSession.cleanup (s : FetchSession) : FetchSession :=
  { s with file_handle_open := false }

/-- The operations a caller can perform on a started session. -/
inductive FOp where
  | write (chunkLen : Nat)
  | complete
  | fail (msg : String)
  | cleanup
deriving DecidableEq, Repr

/-- Which operations close the file handle. -/
def FOp.closesHandle : FOp → Bool
  | FOp.write _ => false
  | FOp.complete => true
  | FOp.fail _ => true
  | FOp.cleanup => true

/-- State effect of one operation (the result value of `write_chunk` /
`complete` is dropped; a raising `write_chunk` leaves the state unchanged). -/
def FetchSession.applyFOp (s : FetchSession) : FOp → FetchSession
  | FOp.write n => (s.write_chunk n).1
  | FOp.complete => s.complete.1
  | FOp.fail msg => s.fail msg
  | FOp.cleanup => s.cleanup

/-- A sequence of operations run against a session. -/
def FetchSession.runFOps (s : FetchSession) (ops : List FOp) : FetchSession :=
  ops.foldl FetchSession.applyFOp s

/-- The receiving loop of `Client.download_from_peer` as seen by the session:
each received chunk is handed to `write_chunk` (`client.py` lines 978-985). -/
def FetchSession.writeAll (s : FetchSession) (chunks : List Nat) : FetchSession :=
  chunks.foldl (fun s n => (s.write_chunk n).1) s

/-! ## Peer transfer server (`client.py`, `PeerServer.handle_peer`) -/

/-- Client-side `FileMetadata` (`client.py` lines 71-139), restricted to the
fields the peer-serving path reads. -/
structure FileMetadata where
  name : String
  size : Nat
  modified : Nat
  path : Option String
  is_published : Bool
deriving DecidableEq, Repr

/-- A snapshot of the filesystem as consulted by `validate_path` and the
send loop: existence, regular-file and readability predicates per path, and
the byte contents per path (`os.path.getsize` is the length of the bytes). -/
structure PeerFS where
  pathOnDisk : String → Bool
  pathIsFile : String → Bool
  pathReadable : String → Bool
  fileBytes : String → List Nat

/-- `FileMetadata.validate_path` (`client.py` lines 119-139): the Bool is
`is_valid`, the string the error message.  `if not self.path` is Python
truthiness, so `None` and `""` both fail with "No file path specified". -/
def validate_path (fs : PeerFS) (m : FileMetadata) : Bool × Option String :=
  match m.path with
  | none => (false, some "No file path specified")
  | some p =>
    if p = "" then (false, some "No file path specified")
    else if fs.pathOnDisk p = false then (false, some ("File not found: " ++ p))
    else if fs.pathIsFile p = false then (false, some ("Path is not a file: " ++ p))
    else if fs.pathReadable p = false then (false, some ("File is not readable: " ++ p))
    else (true, none)

/-- Fuel-driven worker for `chunksOf`: each iteration consumes at least one
list element, so `fuel = l.length` suffices. -/
def chunksGo {α : Type} (n : Nat) : Nat → List α → List (List α)
  | 0, _ => []
  | _ + 1, [] => []
  | fuel + 1, x :: xs =>
    if n = 0 then []
    else (x :: xs).take n :: chunksGo n fuel ((x :: xs).drop n)

/-- Split a byte list into maximal chunks of `n` bytes: the read loop
`while True: chunk = f.read(chunk_size); if not chunk: break`
(`client.py` lines 239-250). -/
def chunksOf {α : Type} (n : Nat) (l : List α) : List (List α) :=
  chunksGo n l.length l

/-- What `handle_peer` writes to the socket for a `GET` command: either one
`ERROR <reason>` line and nothing else, or a `LENGTH <size>` line followed by
the streamed body chunks. -/
inductive PeerOut where
  | errorLine (reason : String)
  | lengthAndBody (size : Nat) (chunks : List (List Nat))
deriving DecidableEq, Repr

/-- `PeerServer.handle_peer` on a parsed `GET fname` line, for a running
client (`client.py` lines 207-260; the mid-transfer shutdown interrupt of
lines 242-245 does not fire while `client_ref.running` holds, which is the
situation this model covers).  `published` is the serving client's own
`published_files` dict. -/
def handle_peer_get (fs : PeerFS) (published : List (String × FileMetadata))
    (fname : String) : PeerOut :=
  match alookup fname published with
  | none => PeerOut.errorLine "notfound"
  | some meta =>
    if (validate_path fs meta).1 = false then PeerOut.errorLine "filenotfound"
    else
      let fpath := meta.path.getD ""
      let size := (fs.fileBytes fpath).length
      let chunkSize := if size > 100 * 1024 * 1024 then 1024 * 1024 else 256 * 1024
      PeerOut.lengthAndBody size (chunksOf chunkSize (fs.fileBytes fpath))

/-! ## Adaptive heartbeat controller (`optimizations/adaptive_heartbeat.py`)

The `state_changes` log list is pure telemetry and is not modelled;
`_change_state` therefore reduces to a state assignment. -/

/-- `ClientState` enum (`adaptive_heartbeat.py` lines 10-15). -/
inductive ClientState where
  | idle
  | active
  | busy
  | offline
deriving DecidableEq, Repr

/-- `AdaptiveHeartbeat` mutable state (`adaptive_heartbeat.py`
lines 40-53). -/
structure AHB where
  state : ClientState
  last_activity : Nat
  last_heartbeat : Nat
  total_heartbeats : Nat
deriving DecidableEq, Repr

/-- `IDLE_THRESHOLD` (`adaptive_heartbeat.py` line 38). -/
def IDLE_THRESHOLD : Nat := 300

/-- `AdaptiveHeartbeat._update_state` (`adaptive_heartbeat.py` lines 73-87):
never auto-transitions out of `BUSY`; otherwise demotes to `IDLE` once the
idle time exceeds the threshold. -/
def updateState (now : Nat) (s : AHB) : AHB :=
  if s.state = ClientState.busy then s
  else if now - s.last_activity > IDLE_THRESHOLD then
    if s.state ≠ ClientState.idle then { s with state := ClientState.idle } else s
  else s

/-- `AdaptiveHeartbeat.get_interval` (`adaptive_heartbeat.py` lines 55-71):
runs the passive update, then maps the state to an interval. -/
def get_interval (now : Nat) (s : AHB) : AHB × Nat :=
  let s1 := updateState now s
  (s1,
    match s1.state with
    | ClientState.idle => 300
    | ClientState.active => 60
    | ClientState.busy => 30
    | ClientState.offline => 600)

/-- `AdaptiveHeartbeat.mark_activity` (`adaptive_heartbeat.py`
lines 89-100). -/
def mark_activity (now : Nat) (s : AHB) : AHB :=
  let s1 := { s with last_activity := now }
  if s1.state = ClientState.idle then { s1 with state := ClientState.active }
  else s1

/-- `AdaptiveHeartbeat.start_file_transfer` (`adaptive_heartbeat.py`
lines 102-105). -/
def start_file_transfer (now : Nat) (s : AHB) : AHB :=
  { mark_activity now s with state := ClientState.busy }

/-- `AdaptiveHeartbeat.end_file_transfer` (`adaptive_heartbeat.py`
lines 107-110). -/
def end_file_transfer (now : Nat) (s : AHB) : AHB :=
  { mark_activity now s with state := ClientState.active }

/-- `AdaptiveHeartbeat.record_heartbeat` (`adaptive_heartbeat.py`
lines 130-133). -/
def record_heartbeat (now : Nat) (s : AHB) : AHB :=
  { s with last_heartbeat := now, total_heartbeats := s.total_heartbeats + 1 }

/-- The state-affecting public operations of the controller
(`get_stats` and `should_send_heartbeat` touch the state only through
`get_interval`). -/
inductive HOp where
  | getInterval
  | markActivity
  | startTransfer
  | endTransfer
  | recordHeartbeat
deriving DecidableEq, Repr

/-- State effect of one controller operation at time `now`. -/
def applyHOp (now : Nat) (s : AHB) : HOp → AHB
  | HOp.getInterval => (get_interval now s).1
  | HOp.markActivity => mark_activity now s
  | HOp.startTransfer => start_file_transfer now s
  | HOp.endTransfer => end_file_transfer now s
  | HOp.recordHeartbeat => record_heartbeat now s

/-! ## Derived notions used to state the claims -/

/-- Default entry used only to destruct a lookup already known to succeed. -/
def defaultFileEntry : FileEntry :=
  { size := 0, modified := 0, published_at := none, is_published := false }

/-- A host publishes `fname?` when its files map holds a published entry for
it (the REQUEST scan condition, `server.py` lines 134-137). -/
def isPublisher (fname? : Option String) (info : HostInfo) : Bool :=
  match alookup fname? info.files with
  | some fe => fe.is_published
  | none => false

/-- The REQUEST answer entry built for one publishing host
(`server.py` lines 138-146). -/
def mkReqHost (fname? : Option String) (h : String) (info : HostInfo) : ReqHost :=
  let fe := (alookup fname? info.files).getD defaultFileEntry
  { hostname := h
    display_name := info.display_name
    ip := info.ip
    port := info.port
    size := fe.size
    modified := fe.modified
    is_published := true }

/-- Two host records that agree on everything REQUEST reads (address, display
name, files); they may differ in `last_seen`/`connected_at`. -/
def sameView (v1 v2 : HostInfo) : Prop :=
  v1.ip = v2.ip ∧ v1.port = v2.port ∧ v1.display_name = v2.display_name ∧
    v1.files = v2.files


/-! ## Association-list lemmas -/

section AListLemmas

variable {α β γ : Type} [DecidableEq α]

theorem alookup_aupsert_self (k : α) (v : β) (l : List (α × β)) :
    alookup k (aupsert k v l) = some v := by
  induction l with
  | nil => simp [alookup, aupsert]
  | cons p rest ih =>
    by_cases h : p.1 = k
    · simp [alookup, aupsert, h]
    · simpa [alookup, aupsert, h] using ih

theorem alookup_aupsert_ne (a k : α) (v : β) (l : List (α × β)) (hak : a ≠ k) :
    alookup a (aupsert k v l) = alookup a l := by
  induction l with
  | nil => simp [alookup, aupsert, Ne.symm hak]
  | cons p rest ih =>
    obtain ⟨b, c⟩ := p
    by_cases h : b = k
    · subst h
      simp [alookup, aupsert, Ne.symm hak]
    · by_cases h2 : b = a
      · simp [alookup, aupsert, h, h2, hak]
      · simpa [alookup, aupsert, h, h2] using ih

theorem alookup_amodify_self (k : α) (f : β → β) (l : List (α × β)) :
    alookup k (amodify k f l) = (alookup k l).map f := by
  induction l with
  | nil => simp [alookup, amodify]
  | cons p rest ih =>
    by_cases h : p.1 = k
    · simp [alookup, amodify, h]
    · simpa [alookup, amodify, h] using ih

theorem alookup_amodify_ne (a k : α) (f : β → β) (l : List (α × β)) (hak : a ≠ k) :
    alookup a (amodify k f l) = alookup a l := by
  induction l with
  | nil => simp [alookup, amodify]
  | cons p rest ih =>
    obtain ⟨b, c⟩ := p
    by_cases h : b = k
    · subst h
      simp [alookup, amodify, Ne.symm hak]
    · by_cases h2 : b = a
      · simp [alookup, amodify, h, h2, hak]
      · simpa [alookup, amodify, h, h2] using ih

theorem keys_amodify (k : α) (f : β → β) (l : List (α × β)) :
    (amodify k f l).map Prod.fst = l.map Prod.fst := by
  induction l with
  | nil => simp [amodify]
  | cons p rest ih =>
    by_cases h : p.1 = k
    · simp [amodify, h]
    · simpa [amodify, h] using ih

theorem mem_keys_aupsert (a k : α) (v : β) (l : List (α × β)) :
    a ∈ (aupsert k v l).map Prod.fst ↔ a ∈ l.map Prod.fst ∨ a = k := by
  induction l with
  | nil => simp [aupsert]
  | cons p rest ih =>
    by_cases h : p.1 = k
    · subst h
      by_cases h2 : a = p.1 <;> simp [aupsert, h2]
    · simp [aupsert, h, ih]
      tauto

theorem nodup_keys_aupsert (k : α) (v : β) (l : List (α × β))
    (hnd : (l.map Prod.fst).Nodup) : ((aupsert k v l).map Prod.fst).Nodup := by
  induction l with
  | nil => simp [aupsert]
  | cons p rest ih =>
    obtain ⟨b, c⟩ := p
    simp only [List.map_cons, List.nodup_cons] at hnd
    by_cases h : b = k
    · subst h
      simpa [aupsert] using hnd
    · have heq : aupsert k v ((b, c) :: rest) = (b, c) :: aupsert k v rest := by
        simp [aupsert, h]
      rw [heq, List.map_cons, List.nodup_cons]
      refine ⟨?_, ih hnd.2⟩
      intro hmem
      rcases (mem_keys_aupsert b k v rest).mp hmem with h1 | h1
      · exact hnd.1 h1
      · exact h h1

theorem alookup_eq_none_of_not_mem_keys (k : α) (l : List (α × β))
    (h : k ∉ l.map Prod.fst) : alookup k l = none := by
  induction l with
  | nil => simp [alookup]
  | cons p rest ih =>
    simp only [List.map_cons, List.mem_cons, not_or] at h
    simp [alookup, Ne.symm h.1, ih h.2]

theorem mem_of_alookup_eq_some (k : α) (v : β) (l : List (α × β))
    (h : alookup k l = some v) : (k, v) ∈ l := by
  induction l with
  | nil => simp [alookup] at h
  | cons p rest ih =>
    obtain ⟨b, c⟩ := p
    by_cases h2 : b = k
    · subst h2
      simp only [alookup, if_pos] at h
      have hv : c = v := Option.some.inj h
      subst hv
      exact List.mem_cons_self _ _
    · simp only [alookup, if_neg h2] at h
      exact List.mem_cons_of_mem _ (ih h)

theorem alookup_isSome_of_mem (k : α) (v : β) (l : List (α × β))
    (h : (k, v) ∈ l) : (alookup k l).isSome := by
  induction l with
  | nil => simp at h
  | cons p rest ih =>
    rcases List.mem_cons.mp h with h1 | h1
    · simp [alookup, ← h1]
    · by_cases h2 : p.1 = k
      · simp [alookup, h2]
      · simpa [alookup, h2] using ih h1

theorem alookup_eq_some_of_mem_of_nodup (k : α) (v : β) (l : List (α × β))
    (hnd : (l.map Prod.fst).Nodup) (hm : (k, v) ∈ l) : alookup k l = some v := by
  induction l with
  | nil => simp at hm
  | cons p rest ih =>
    simp only [List.map_cons, List.nodup_cons] at hnd
    rcases List.mem_cons.mp hm with h1 | h1
    · simp [alookup, ← h1]
    · by_cases h2 : p.1 = k
      · exfalso
        apply hnd.1
        rw [h2]
        exact List.mem_map.mpr ⟨(k, v), h1, rfl⟩
      · simpa [alookup, h2] using ih hnd.2 h1

theorem alookup_filter (k : α) (p : α × β → Bool) (l : List (α × β))
    (hnd : (l.map Prod.fst).Nodup) :
    alookup k (l.filter p) =
      (alookup k l).bind (fun v => if p (k, v) then some v else none) := by
  induction l with
  | nil => simp [alookup]
  | cons q rest ih =>
    obtain ⟨b, c⟩ := q
    simp only [List.map_cons, List.nodup_cons] at hnd
    by_cases h : b = k
    · subst h
      by_cases hp : p (b, c)
      · simp [List.filter_cons, hp, alookup]
      · have hnone : alookup b (rest.filter p) = none := by
          apply alookup_eq_none_of_not_mem_keys
          intro hmem
          apply hnd.1
          rcases List.mem_map.mp hmem with ⟨x, hx, hfx⟩
          exact List.mem_map.mpr ⟨x, List.mem_of_mem_filter hx, hfx⟩
        simp [List.filter_cons, hp, alookup, hnone]
    · by_cases hp : p (b, c)
      · simpa [List.filter_cons, hp, alookup, h] using ih hnd.2
      · simpa [List.filter_cons, hp, alookup, h] using ih hnd.2

theorem alookup_map_keyed (k : α) (g : α → β → γ) (l : List (α × β)) :
    alookup k (l.map fun p => (p.1, g p.1 p.2)) = (alookup k l).map (g k) := by
  induction l with
  | nil => simp [alookup]
  | cons p rest ih =>
    by_cases h : p.1 = k
    · subst h
      simp [alookup]
    · simpa [alookup, h] using ih

theorem aupsert_aupsert (k : α) (v1 v2 : β) (l : List (α × β)) :
    aupsert k v2 (aupsert k v1 l) = aupsert k v2 l := by
  induction l with
  | nil => simp [aupsert]
  | cons p rest ih =>
    by_cases h : p.1 = k
    · simp [aupsert, h]
    · simp [aupsert, h, ih]

theorem eq_of_mem_of_keys_nodup {l : List (α × β)} {p q : α × β}
    (hnd : (l.map Prod.fst).Nodup) (hp : p ∈ l) (hq : q ∈ l) (hk : p.1 = q.1) :
    p = q := by
  induction l with
  | nil => simp at hp
  | cons r rest ih =>
    simp only [List.map_cons, List.nodup_cons] at hnd
    rcases List.mem_cons.mp hp with hp1 | hp1 <;>
      rcases List.mem_cons.mp hq with hq1 | hq1
    · rw [hp1, hq1]
    · exfalso
      apply hnd.1
      rw [← hp1, hk]
      exact List.mem_map.mpr ⟨q, hq1, rfl⟩
    · exfalso
      apply hnd.1
      rw [← hq1, ← hk]
      exact List.mem_map.mpr ⟨p, hp1, rfl⟩
    · exact ih hnd.2 hp1 hq1

end AListLemmas

/-! ## Derived lemmas about the embedded operations -/

theorem alookup_amodify_isSome {α β : Type} [DecidableEq α] (a k : α) (f : β → β)
    (l : List (α × β)) :
    (alookup a (amodify k f l)).isSome = (alookup a l).isSome := by
  by_cases h : a = k
  · subst h
    rw [alookup_amodify_self]
    cases alookup a l <;> simp
  · rw [alookup_amodify_ne _ _ _ _ h]

/-- The REQUEST host list is the publishing hosts, in registry order, each
rendered through `mkReqHost`. -/
theorem requestHosts_eq_filter_map (fname? : Option String) (r : Registry) :
    requestHosts fname? r =
      (r.filter fun p => isPublisher fname? p.2).map fun p =>
        mkReqHost fname? p.1 p.2 := by
  induction r with
  | nil => simp [requestHosts]
  | cons p rest ih =>
    obtain ⟨h, info⟩ := p
    cases hfe : alookup fname? info.files with
    | none =>
      simpa [requestHosts, List.filterMap_cons, List.filter_cons, isPublisher, hfe]
        using ih
    | some fe =>
      by_cases hp : fe.is_published
      · simpa [requestHosts, List.filterMap_cons, List.filter_cons, isPublisher,
          hfe, hp, mkReqHost, defaultFileEntry] using ih
      · simpa [requestHosts, List.filterMap_cons, List.filter_cons, isPublisher,
          hfe, hp] using ih

/-- Looking a host up in the LIST snapshot: its record rendered to a
`SnapEntry` (published files only). -/
theorem alookup_listSnap (h : String) (r : Registry) :
    alookup h (listSnap r) = (alookup h r).map fun v =>
      ({ ip := v.ip, port := v.port, display_name := v.display_name,
         files := v.files.filter fun q => q.2.is_published,
         last_seen := v.last_seen, connected_at := v.connected_at } : SnapEntry) := by
  induction r with
  | nil => simp [listSnap, alookup]
  | cons p rest ih =>
    obtain ⟨a, b⟩ := p
    by_cases ha : a = h
    · subst ha
      simp [listSnap, alookup]
    · simpa [listSnap, alookup, ha] using ih

theorem requestOp_congr (f? : Option String) (r1 r2 : Registry)
    (h : requestHosts f? r1 = requestHosts f? r2) :
    requestOp f? r1 = requestOp f? r2 := by
  simp only [requestOp, h]

theorem requestHosts_aupsert_congr (f? : Option String) (k : String)
    (v1 v2 : HostInfo) (hsv : sameView v1 v2) (l : Registry) :
    requestHosts f? (aupsert k v2 l) = requestHosts f? (aupsert k v1 l) := by
  obtain ⟨hip, hport, hdn, hfiles⟩ := hsv
  induction l with
  | nil =>
    simp [requestHosts, List.filterMap_cons, aupsert, hfiles]
    cases alookup f? v2.files with
    | none => simp
    | some fe =>
      by_cases hp : fe.is_published <;> simp [hp, hip, hport, hdn]
  | cons p rest ih =>
    obtain ⟨a, b⟩ := p
    by_cases h : a = k
    · subst h
      simp only [aupsert, if_pos rfl]
      simp [requestHosts, List.filterMap_cons, hfiles]
      cases alookup f? v2.files with
      | none => simp
      | some fe =>
        by_cases hp : fe.is_published <;> simp [hp, hip, hport, hdn]
    · simp only [aupsert, if_neg h]
      simp only [requestHosts, List.filterMap_cons] at ih ⊢
      rw [show (List.filterMap _ (aupsert k v2 rest) = List.filterMap _ (aupsert k v1 rest)) from ih]

/-- Upserting a record that differs from another only in its timestamps
changes the LIST snapshot at that key's row alone: the new snapshot is the
old one with exactly that row's `last_seen`/`connected_at` replaced by the
new record's timestamps. -/
theorem listSnap_aupsert_retime (k : String) (v1 v2 : HostInfo)
    (hsv : sameView v1 v2) (l : Registry) :
    listSnap (aupsert k v2 l) =
      amodify k (fun e => { e with last_seen := v2.last_seen
                                   connected_at := v2.connected_at })
        (listSnap (aupsert k v1 l)) := by
  obtain ⟨hip, hport, hdn, hfiles⟩ := hsv
  induction l with
  | nil => simp [listSnap, aupsert, amodify, hip, hport, hdn, hfiles]
  | cons p rest ih =>
    obtain ⟨a, b⟩ := p
    by_cases h : a = k
    · subst h
      simp [listSnap, aupsert, amodify, hip, hport, hdn, hfiles]
    · simp only [aupsert, if_neg h, listSnap, List.map_cons, amodify, h,
        if_false, List.cons.injEq] at ih ⊢
      exact ⟨trivial, ih⟩

/-- `write_chunk` on an open handle: keeps the handle open, succeeds with the
chunk length, adds it to `downloaded_size`, touches nothing else. -/
theorem write_chunk_open (s : FetchSession) (hs : s.file_handle_open = true)
    (n : Nat) :
    (s.write_chunk n).1.file_handle_open = true
    ∧ (s.write_chunk n).2 = Except.ok n
    ∧ (s.write_chunk n).1.progress.downloaded_size =
        s.progress.downloaded_size + n
    ∧ (s.write_chunk n).1.total_size = s.total_size
    ∧ (s.write_chunk n).1.progress.status = s.progress.status := by
  simp [FetchSession.write_chunk, hs]

/-- Folding the receive loop over a list of chunk lengths. -/
theorem writeAll_effects (chunks : List Nat) :
    ∀ (s : FetchSession), s.file_handle_open = true →
      (s.writeAll chunks).file_handle_open = true
      ∧ (s.writeAll chunks).progress.downloaded_size =
          s.progress.downloaded_size + chunks.sum
      ∧ (s.writeAll chunks).total_size = s.total_size := by
  induction chunks with
  | nil => intro s hs; simpa [FetchSession.writeAll] using hs
  | cons n rest ih =>
    intro s hs
    have hw := write_chunk_open s hs n
    have hrec := ih (s.write_chunk n).1 hw.1
    refine ⟨?_, ?_, ?_⟩
    · simpa [FetchSession.writeAll] using hrec.1
    · have := hrec.2.1
      simp only [FetchSession.writeAll] at this ⊢
      rw [List.foldl_cons] at *
      rw [this, hw.2.2.1, List.sum_cons]
      omega
    · have := hrec.2.2
      simp only [FetchSession.writeAll] at this ⊢
      rw [List.foldl_cons] at *
      rw [this, hw.2.2.2.1]

/-- A sequence of non-closing operations keeps the file handle open. -/
theorem runFOps_keeps_open (ops : List FOp) :
    ∀ (s : FetchSession), s.file_handle_open = true →
      (∀ op ∈ ops, op.closesHandle = false) →
      (s.runFOps ops).file_handle_open = true := by
  induction ops with
  | nil => intro s hs _; simpa [FetchSession.runFOps] using hs
  | cons op rest ih =>
    intro s hs hops
    have hop : op.closesHandle = false := hops op (List.mem_cons_self _ _)
    have hopen : (s.applyFOp op).file_handle_open = true := by
      cases op with
      | write n => simpa [FetchSession.applyFOp] using (write_chunk_open s hs n).1
      | complete => simp [FOp.closesHandle] at hop
      | fail msg => simp [FOp.closesHandle] at hop
      | cleanup => simp [FOp.closesHandle] at hop
    have := ih (s.applyFOp op) hopen (fun o ho => hops o (List.mem_cons_of_mem _ ho))
    simpa [FetchSession.runFOps] using this

/-- The chunking of the send loop reassembles to the original bytes. -/
theorem chunksGo_join {α : Type} (n : Nat) (hn : n ≠ 0) :
    ∀ (fuel : Nat) (l : List α), l.length ≤ fuel →
      (chunksGo n fuel l).flatten = l := by
  intro fuel
  induction fuel with
  | zero =>
    intro l hl
    have : l = [] := List.eq_nil_of_length_eq_zero (Nat.le_zero.mp hl)
    simp [this, chunksGo]
  | succ fuel ih =>
    intro l hl
    cases l with
    | nil => simp [chunksGo]
    | cons x xs =>
      have hdrop : ((x :: xs).drop n).length ≤ fuel := by
        simp only [List.length_drop, List.length_cons]
        simp only [List.length_cons] at hl
        have := Nat.pos_of_ne_zero hn
        omega
      simp only [chunksGo, if_neg hn, List.flatten_cons]
      rw [ih _ hdrop, List.take_append_drop]

theorem chunksOf_join {α : Type} (n : Nat) (hn : n ≠ 0) (l : List α) :
    (chunksOf n l).flatten = l :=
  chunksGo_join n hn l.length l (Nat.le_refl _)

/-- Every streamed chunk is nonempty and no longer than the chunk size. -/
theorem chunksGo_bounds {α : Type} (n : Nat) :
    ∀ (fuel : Nat) (l : List α), ∀ c ∈ chunksGo n fuel l,
      c ≠ [] ∧ c.length ≤ n := by
  intro fuel
  induction fuel with
  | zero => intro l c hc; simp [chunksGo] at hc
  | succ fuel ih =>
    intro l c hc
    cases l with
    | nil => simp [chunksGo] at hc
    | cons x xs =>
      by_cases hn : n = 0
      · simp [chunksGo, hn] at hc
      · simp only [chunksGo, if_neg hn, List.mem_cons] at hc
        rcases hc with hc | hc
        · subst hc
          constructor
          · have := Nat.pos_of_ne_zero hn
            simp [List.take_cons]
            omega
          · simpa using List.length_take_le n (x :: xs)
        · exact ih _ c hc

theorem chunksOf_bounds {α : Type} (n : Nat) (l : List α) :
    ∀ c ∈ chunksOf n l, c ≠ [] ∧ c.length ≤ n :=
  chunksGo_bounds n l.length l

/-! ## Claim theorems -/

/-- Claim C1: for every REQUEST(fname) (a truthy filename), if no registered
host has a published entry for fname the response is `NOTFOUND` with an empty
host list; if the publishing hosts are nonempty ("exactly N" of them) the
response is `FOUND` carrying one entry per such host, in registry order, each
built by `mkReqHost` from that host's hostname, display name, ip, port and
the file entry's size and modified fields — in particular the list's length
is the number of publishing hosts. -/
theorem requestOp_notfound_and_found (f : String) (hf : f ≠ "") (r : Registry) :
    ((∀ p ∈ r, isPublisher (some f) p.2 = false) →
        requestOp (some f) r = Resp.notfound [])
    ∧ ((r.filter fun p => isPublisher (some f) p.2) ≠ [] →
        requestOp (some f) r =
          Resp.found ((r.filter fun p => isPublisher (some f) p.2).map fun p =>
            mkReqHost (some f) p.1 p.2)
        ∧ ((r.filter fun p => isPublisher (some f) p.2).map fun p =>
            mkReqHost (some f) p.1 p.2).length
          = (r.filter fun p => isPublisher (some f) p.2).length) := by
  have htr : truthyS (some f) = true := by simp [truthyS, hf]
  constructor
  · intro hnone
    have hfil : (r.filter fun p => isPublisher (some f) p.2) = [] := by
      apply List.filter_eq_nil.mpr
      intro p hp
      simp [hnone p hp]
    simp [requestOp, htr, requestHosts_eq_filter_map, hfil]
  · intro hne
    have hmapne : ((r.filter fun p => isPublisher (some f) p.2).map fun p =>
        mkReqHost (some f) p.1 p.2) ≠ [] := by
      simpa using hne
    refine ⟨?_, by simp⟩
    have hie : ((r.filter fun p => isPublisher (some f) p.2).map fun p =>
        mkReqHost (some f) p.1 p.2).isEmpty = false := by
      cases hmap : ((r.filter fun p => isPublisher (some f) p.2).map fun p =>
          mkReqHost (some f) p.1 p.2) with
      | nil => exact absurd hmap hmapne
      | cons a l => simp
    simp [requestOp, htr, requestHosts_eq_filter_map, hie]

/-- Witness for C1: a one-host registry publishing `doc.txt` yields `FOUND`
with exactly that host's entry; the empty registry yields `NOTFOUND`. -/
theorem requestOp_notfound_and_found_witness :
    requestOp (some "doc.txt") [] = Resp.notfound [] ∧
    requestOp (some "doc.txt")
        [("alice", ⟨"10.0.0.1", 6000, "Alice",
          [(some "doc.txt", ⟨100, 5, some 7, true⟩)], 0, 0⟩)] =
      Resp.found [⟨"alice", "Alice", "10.0.0.1", 6000, 100, 5, true⟩] := by
  constructor
  · exact (requestOp_notfound_and_found "doc.txt" (by decide) []).1 (by simp)
  · have h := ((requestOp_notfound_and_found "doc.txt" (by decide)
      [("alice", ⟨"10.0.0.1", 6000, "Alice",
        [(some "doc.txt", ⟨100, 5, some 7, true⟩)], 0, 0⟩)]).2 (by decide)).1
    rw [h]
    decide

/-- Claim C7: PING refreshes the caller's `last_seen` when the connection has
identified itself with a currently registered hostname, and answers `ALIVE`
exactly when the target hostname is a key of the registry (otherwise `DEAD`)
— registry membership alone decides the answer. -/
theorem pingOp_membership (now : Nat) (connH target? : Option String)
    (r : Registry) :
    ((pingOp now connH target? r).2 = Resp.alive ↔
        ∃ t, target? = some t ∧ (alookup t r).isSome = true)
    ∧ ((pingOp now connH target? r).2 = Resp.alive ∨
        (pingOp now connH target? r).2 = Resp.dead)
    ∧ (∀ h, connH = some h → h ≠ "" → (alookup h r).isSome = true →
        alookup h (pingOp now connH target? r).1 =
          (alookup h r).map fun info => { info with last_seen := now }) := by
  have hkeys : ∀ t, (alookup t (pingRefresh now connH r)).isSome =
      (alookup t r).isSome := by
    intro t
    unfold pingRefresh
    by_cases hc : (truthyS connH && (alookup (connH.getD "") r).isSome) = true
    · simp [hc, alookup_amodify_isSome]
    · simp [hc]
  refine ⟨?_, ?_, ?_⟩
  · cases htg : target? with
    | none =>
      simp only [pingOp, pingTargetAlive, Bool.false_eq_true, if_false]
      constructor
      · intro h
        cases h
      · rintro ⟨t, ht, _⟩
        cases ht
    | some t =>
      have hk := hkeys t
      simp only [pingOp, pingTargetAlive, hk]
      by_cases ha : (alookup t r).isSome = true
      · simp [ha]
      · simp only [Bool.not_eq_true] at ha
        simp [ha]
  · simp only [pingOp]
    cases hb : pingTargetAlive target? (pingRefresh now connH r) with
    | false => right; simp [hb]
    | true => left; simp [hb]
  · intro h hcon hne hreg
    subst hcon
    have htr : (truthyS (some h) && (alookup ((some h).getD "") r).isSome) = true := by
      simp [truthyS, hne, hreg]
    show alookup h (pingRefresh now (some h) r) = _
    unfold pingRefresh
    rw [if_pos htr]
    simp only [Option.getD_some]
    exact alookup_amodify_self h _ r

/-- Witness for C7: a registered caller pinging itself gets `ALIVE` and its
`last_seen` is refreshed. -/
theorem pingOp_membership_witness :
    alookup "alice"
        (pingOp 42 (some "alice") (some "alice")
          [("alice", ⟨"10.0.0.1", 6000, "Alice", [], 7, 7⟩)]).1 =
      some ⟨"10.0.0.1", 6000, "Alice", [], 42, 7⟩ := by
  have h := (pingOp_membership 42 (some "alice") (some "alice")
      [("alice", ⟨"10.0.0.1", 6000, "Alice", [], 7, 7⟩)]).2.2 "alice" rfl
      (by decide) (by decide)
  rw [h]
  decide

/-- Claim C9: a PUBLISH that carries a (truthy) hostname but no `fname` field
is still answered `ACK`, and a published `FileEntry` keyed by the missing
(`none`) filename is upserted into that host's files map — the filename is
never validated. -/
theorem publishOp_accepts_missing_fname (ci : String) (cp now sz md : Nat)
    (h : String) (hh : h ≠ "") (r : Registry) :
    (publishOp ci cp now (some h) none sz md r).2 = Resp.ack
    ∧ ∃ info, alookup h (publishOp ci cp now (some h) none sz md r).1 = some info
        ∧ alookup none info.files =
            some { size := sz, modified := md, published_at := some now,
                   is_published := true } := by
  have htr : truthyS (some h) = true := by simp [truthyS, hh]
  constructor
  · simp [publishOp, htr]
  · by_cases hc : (alookup h r).isSome = true
    · obtain ⟨info0, hinfo0⟩ := Option.isSome_iff_exists.mp hc
      have hst : (publishOp ci cp now (some h) none sz md r).1 =
          amodify h (fun info =>
            { info with
              files := aupsert none ⟨sz, md, some now, true⟩ info.files
              last_seen := now }) r := by
        simp [publishOp, htr, hc]
      rw [hst, alookup_amodify_self, hinfo0]
      exact ⟨_, rfl, by rw [alookup_aupsert_self]⟩
    · have hst : (publishOp ci cp now (some h) none sz md r).1 =
          amodify h (fun info =>
            { info with
              files := aupsert none ⟨sz, md, some now, true⟩ info.files
              last_seen := now })
            (aupsert h ⟨ci, cp, h, [], now, now⟩ r) := by
        simp only [publishOp, htr, Bool.true_eq_false, if_false, Option.getD_some]
        rw [if_neg hc]
      rw [hst, alookup_amodify_self, alookup_aupsert_self]
      exact ⟨_, rfl, by rw [alookup_aupsert_self]⟩

/-- Witness for C9: publishing with no filename against an empty registry is
acknowledged and records the `none`-keyed entry. -/
theorem publishOp_accepts_missing_fname_witness :
    (publishOp "10.0.0.2" 5050 9 (some "bob") none 11 22 []).2 = Resp.ack := by
  exact (publishOp_accepts_missing_fname "10.0.0.2" 5050 9 11 22 "bob"
    (by decide) []).1

/-- Claim C3: `complete()` closes the file handle and returns `true` with
status `Completed` exactly when `downloaded_size` equals `total_size`;
otherwise it returns `false` with status `Failed` and a size-mismatch error
message.  Consequently a receiver that started a fresh session and wrote
chunks totalling less than `total_size` (its peer closed early) ends
`Failed`, never `Completed`. -/
theorem complete_iff_size_match :
    (∀ s : FetchSession,
      s.complete.1.file_handle_open = false
      ∧ (s.complete.2 = true ↔ s.progress.downloaded_size = s.total_size)
      ∧ (s.progress.downloaded_size = s.total_size →
          s.complete.1.progress.status = FetchStatus.completed)
      ∧ (s.progress.downloaded_size ≠ s.total_size →
          s.complete.2 = false
          ∧ s.complete.1.progress.status = FetchStatus.failed
          ∧ s.complete.1.progress.error_message =
              some (FetchError.sizeMismatch s.total_size
                s.progress.downloaded_size)))
    ∧ (∀ (fn sp ph pip : String) (total cs : Nat) (chunks : List Nat),
        chunks.sum < total →
        ((((mkFetchSession fn total sp ph pip cs).start).writeAll
            chunks).complete).2 = false
        ∧ ((((mkFetchSession fn total sp ph pip cs).start).writeAll
            chunks).complete).1.progress.status = FetchStatus.failed) := by
  constructor
  · intro s
    by_cases hds : s.progress.downloaded_size = s.total_size
    · refine ⟨?_, ?_, ?_, ?_⟩ <;>
        simp [FetchSession.complete, hds]
    · refine ⟨?_, ?_, ?_, ?_⟩ <;>
        simp [FetchSession.complete, hds]
  · intro fn sp ph pip total cs chunks hlt
    have hopen : ((mkFetchSession fn total sp ph pip cs).start).file_handle_open
        = true := rfl
    have hw := writeAll_effects chunks ((mkFetchSession fn total sp ph pip cs).start)
      hopen
    have hdl : (((mkFetchSession fn total sp ph pip cs).start).writeAll
        chunks).progress.downloaded_size = chunks.sum := by
      rw [hw.2.1]
      simp [mkFetchSession, FetchSession.start]
    have htot : (((mkFetchSession fn total sp ph pip cs).start).writeAll
        chunks).total_size = total := by
      rw [hw.2.2]
      simp [mkFetchSession, FetchSession.start]
    have hne : (((mkFetchSession fn total sp ph pip cs).start).writeAll
        chunks).progress.downloaded_size ≠
        (((mkFetchSession fn total sp ph pip cs).start).writeAll
        chunks).total_size := by
      rw [hdl, htot]
      omega
    constructor <;> simp [FetchSession.complete, hne]

/-- Witness for C3: a 10-byte transfer whose peer delivered only 3 + 4 bytes
ends `Failed`, and a completed equal-size session reports `true`. -/
theorem complete_iff_size_match_witness :
    ((((mkFetchSession "f.bin" 10 "/tmp/f.bin" "alice" "10.0.0.1"
        262144).start).writeAll [3, 4]).complete).1.progress.status =
      FetchStatus.failed := by
  exact (complete_iff_size_match.2 "f.bin" "/tmp/f.bin" "alice" "10.0.0.1"
    10 262144 [3, 4] (by decide)).2

/-- Claim C10: `write_chunk` before `start()` (no open handle) raises
`RuntimeError` and leaves the session — in particular `downloaded_size` and
the status — unchanged; once `start()` has run and no `complete`/`fail`/
`cleanup` has closed the handle since, the handle is still open, so the error
branch is unreachable and each call returns the chunk length and increases
`downloaded_size` by exactly that length. -/
theorem write_chunk_before_start_and_after :
    (∀ (s : FetchSession) (n : Nat), s.file_handle_open = false →
        s.write_chunk n = (s, Except.error "Fetch session not started"))
    ∧ (∀ (s : FetchSession) (ops : List FOp) (n : Nat),
        (∀ op ∈ ops, op.closesHandle = false) →
        ((s.start).runFOps ops).file_handle_open = true
        ∧ (((s.start).runFOps ops).write_chunk n).2 = Except.ok n
        ∧ (((s.start).runFOps ops).write_chunk n).1.progress.downloaded_size =
            ((s.start).runFOps ops).progress.downloaded_size + n
        ∧ (((s.start).runFOps ops).write_chunk n).1.progress.status =
            ((s.start).runFOps ops).progress.status) := by
  constructor
  · intro s n hs
    simp [FetchSession.write_chunk, hs]
  · intro s ops n hops
    have hopen : ((s.start).runFOps ops).file_handle_open = true :=
      runFOps_keeps_open ops s.start rfl hops
    have hw := write_chunk_open _ hopen n
    exact ⟨hopen, hw.2.1, hw.2.2.1, hw.2.2.2.2⟩

/-- Witness for C10: a fresh session rejects `write_chunk`, while a started
session that has only written accepts the next chunk. -/
theorem write_chunk_before_start_and_after_witness :
    ((mkFetchSession "g.bin" 9 "/tmp/g.bin" "" "" 262144).write_chunk 4).2 =
      Except.error "Fetch session not started"
    ∧ ((((mkFetchSession "g.bin" 9 "/tmp/g.bin" "" "" 262144).start).runFOps
        [FOp.write 3]).write_chunk 4).2 = Except.ok 4 := by
  constructor
  · rw [(write_chunk_before_start_and_after.1
      (mkFetchSession "g.bin" 9 "/tmp/g.bin" "" "" 262144) 4 rfl)]
  · exact (write_chunk_before_start_and_after.2
      (mkFetchSession "g.bin" 9 "/tmp/g.bin" "" "" 262144) [FOp.write 3] 4
      (by decide)).2.1

/-- Claim C6: while the controller is `Busy`, no operation other than
`end_file_transfer` — in particular not `get_interval`'s passive update —
changes the state; `end_file_transfer` moves it to `Active`.  The passive
update demotes `Active` to `Idle` exactly when the elapsed idle time exceeds
the idle threshold. -/
theorem busy_never_auto_demoted :
    (∀ (now : Nat) (s : AHB) (op : HOp), s.state = ClientState.busy →
        op ≠ HOp.endTransfer → (applyHOp now s op).state = ClientState.busy)
    ∧ (∀ (now : Nat) (s : AHB), s.state = ClientState.busy →
        (applyHOp now s HOp.endTransfer).state = ClientState.active)
    ∧ (∀ (now : Nat) (s : AHB), s.state = ClientState.active →
        ((updateState now s).state = ClientState.idle ↔
          now - s.last_activity > IDLE_THRESHOLD)
        ∧ ((updateState now s).state = ClientState.active ↔
          ¬ now - s.last_activity > IDLE_THRESHOLD)) := by
  refine ⟨?_, ?_, ?_⟩
  · intro now s op hbusy hop
    cases op with
    | getInterval => simp [applyHOp, get_interval, updateState, hbusy]
    | markActivity => simp [applyHOp, mark_activity, hbusy]
    | startTransfer => simp [applyHOp, start_file_transfer]
    | endTransfer => exact absurd rfl hop
    | recordHeartbeat => simp [applyHOp, record_heartbeat, hbusy]
  · intro now s _
    simp [applyHOp, end_file_transfer]
  · intro now s hact
    have hnb : s.state ≠ ClientState.busy := by rw [hact]; decide
    by_cases hidle : now - s.last_activity > IDLE_THRESHOLD
    · constructor
      · simp [updateState, hnb, hidle, hact]
      · simp [updateState, hnb, hidle, hact]
    · constructor
      · simp [updateState, hnb, hidle, hact]
      · simp [updateState, hnb, hidle, hact]

/-- Witness for C6: a busy controller stays busy through `get_interval`, an
active one is demoted to idle exactly past the threshold. -/
theorem busy_never_auto_demoted_witness :
    (applyHOp 1000 ⟨ClientState.busy, 0, 0, 0⟩ HOp.getInterval).state =
      ClientState.busy
    ∧ (updateState 1000 ⟨ClientState.active, 0, 0, 0⟩).state =
      ClientState.idle := by
  constructor
  · exact busy_never_auto_demoted.1 1000 ⟨ClientState.busy, 0, 0, 0⟩
      HOp.getInterval rfl (by decide)
  · exact ((busy_never_auto_demoted.2.2 1000
      ⟨ClientState.active, 0, 0, 0⟩ rfl).1).mpr (by decide)

/-- Claim C4: a peer `GET fname` is answered with a single `ERROR notfound`
line (and no body) when `fname` is not in the serving client's own published
set, with `ERROR filenotfound` when the stored path fails validation, and
otherwise with `LENGTH size` (the size of the file on disk) followed by
exactly `size` raw bytes — the streamed chunks reassemble to the file's
bytes, each chunk is nonempty and bounded by 1 MiB when the size exceeds 100
MiB and by 256 KiB otherwise. -/
theorem handle_peer_get_spec (fs : PeerFS)
    (published : List (String × FileMetadata)) (fname : String) :
    (alookup fname published = none →
        handle_peer_get fs published fname = PeerOut.errorLine "notfound")
    ∧ (∀ meta, alookup fname published = some meta →
        (validate_path fs meta).1 = false →
        handle_peer_get fs published fname = PeerOut.errorLine "filenotfound")
    ∧ (∀ meta, alookup fname published = some meta →
        (validate_path fs meta).1 = true →
        handle_peer_get fs published fname =
          PeerOut.lengthAndBody (fs.fileBytes (meta.path.getD "")).length
            (chunksOf
              (if (fs.fileBytes (meta.path.getD "")).length > 100 * 1024 * 1024
                then 1024 * 1024 else 256 * 1024)
              (fs.fileBytes (meta.path.getD "")))
        ∧ (chunksOf
            (if (fs.fileBytes (meta.path.getD "")).length > 100 * 1024 * 1024
              then 1024 * 1024 else 256 * 1024)
            (fs.fileBytes (meta.path.getD ""))).flatten =
          fs.fileBytes (meta.path.getD "")
        ∧ ∀ c ∈ chunksOf
            (if (fs.fileBytes (meta.path.getD "")).length > 100 * 1024 * 1024
              then 1024 * 1024 else 256 * 1024)
            (fs.fileBytes (meta.path.getD "")),
            c ≠ [] ∧ c.length ≤
              (if (fs.fileBytes (meta.path.getD "")).length > 100 * 1024 * 1024
                then 1024 * 1024 else 256 * 1024)) := by
  refine ⟨?_, ?_, ?_⟩
  · intro h
    simp [handle_peer_get, h]
  · intro meta hm hv
    simp [handle_peer_get, hm, hv]
  · intro meta hm hv
    have hcs : (if (fs.fileBytes (meta.path.getD "")).length > 100 * 1024 * 1024
        then 1024 * 1024 else 256 * 1024) ≠ 0 := by
      split <;> simp
    refine ⟨?_, chunksOf_join _ hcs _, chunksOf_bounds _ _⟩
    simp [handle_peer_get, hm, hv]

/-- Witness for C4: a published 3-byte file is served as `LENGTH 3` plus one
chunk holding exactly those bytes. -/
theorem handle_peer_get_spec_witness :
    handle_peer_get
        ⟨fun p => p == "/repo/a.txt", fun p => p == "/repo/a.txt",
          fun _ => true,
          fun p => if p == "/repo/a.txt" then [1, 2, 3] else []⟩
        [("a.txt", ⟨"a.txt", 3, 0, some "/repo/a.txt", true⟩)] "a.txt" =
      PeerOut.lengthAndBody 3 [[1, 2, 3]] := by
  have h := (handle_peer_get_spec
      ⟨fun p => p == "/repo/a.txt", fun p => p == "/repo/a.txt",
        fun _ => true,
        fun p => if p == "/repo/a.txt" then [1, 2, 3] else []⟩
      [("a.txt", ⟨"a.txt", 3, 0, some "/repo/a.txt", true⟩)] "a.txt").2.2
      ⟨"a.txt", 3, 0, some "/repo/a.txt", true⟩ (by decide) (by decide)
  rw [h.1]
  decide

/-- Claim C5: one sweep pass removes exactly the hosts with
`now - last_seen > timeout` — their keys no longer resolve — and keeps every
other host record unchanged, adding nothing; a removed host appears in no
LIST snapshot of the swept registry and contributes no entry to any REQUEST
result over it. -/
theorem cleanup_evicts_exactly_inactive (now timeout : Nat) (r : Registry)
    (hnd : (r.map Prod.fst).Nodup) :
    (∀ p ∈ r, now - p.2.last_seen > timeout →
        p ∉ cleanupOp now timeout r
        ∧ alookup p.1 (cleanupOp now timeout r) = none)
    ∧ (∀ p ∈ r, ¬ now - p.2.last_seen > timeout → p ∈ cleanupOp now timeout r)
    ∧ (∀ p ∈ cleanupOp now timeout r, p ∈ r ∧ ¬ now - p.2.last_seen > timeout)
    ∧ (∀ h info, alookup h r = some info → now - info.last_seen > timeout →
        alookup h (listSnap (cleanupOp now timeout r)) = none
        ∧ ∀ f? e, e ∈ requestHosts f? (cleanupOp now timeout r) →
            e.hostname ≠ h) := by
  have hmem : ∀ p, p ∈ cleanupOp now timeout r ↔
      p ∈ r ∧ ¬ now - p.2.last_seen > timeout := by
    intro p
    unfold cleanupOp
    rw [List.mem_filter]
    simp
  have hgone : ∀ p ∈ r, now - p.2.last_seen > timeout →
      alookup p.1 (cleanupOp now timeout r) = none := by
    intro p hp hto
    cases hlk : alookup p.1 (cleanupOp now timeout r) with
    | none => rfl
    | some v =>
      exfalso
      have hv := mem_of_alookup_eq_some _ _ _ hlk
      have hvr := ((hmem (p.1, v)).mp hv).1
      have := eq_of_mem_of_keys_nodup hnd hvr hp rfl
      rw [this] at hv
      exact ((hmem p).mp hv).2 hto
  refine ⟨?_, ?_, ?_, ?_⟩
  · intro p hp hto
    refine ⟨?_, hgone p hp hto⟩
    intro hin
    exact ((hmem p).mp hin).2 hto
  · intro p hp hto
    exact (hmem p).mpr ⟨hp, hto⟩
  · intro p hp
    exact (hmem p).mp hp
  · intro h info hlk hto
    have hp : (h, info) ∈ r := mem_of_alookup_eq_some _ _ _ hlk
    have hnone : alookup h (cleanupOp now timeout r) = none :=
      hgone (h, info) hp hto
    constructor
    · rw [alookup_listSnap, hnone]
      rfl
    · intro f? e he
      rw [requestHosts_eq_filter_map] at he
      rcases List.mem_map.mp he with ⟨p, hpf, hpe⟩
      have hpin : p ∈ cleanupOp now timeout r := List.mem_of_mem_filter hpf
      intro hname
      have hph : p.1 = h := by
        rw [← hpe] at hname
        simpa [mkReqHost] using hname
      have : (alookup h (cleanupOp now timeout r)).isSome := by
        rw [← hph]
        exact alookup_isSome_of_mem p.1 p.2 _ (by simpa using hpin)
      rw [hnone] at this
      simp at this

/-- Witness for C5: with `now = 1000`, `timeout = 100`, a host last seen at 0
is evicted while one last seen at 950 is kept, and the evicted host is absent
from the LIST snapshot. -/
theorem cleanup_evicts_exactly_inactive_witness :
    ("old", (⟨"10.0.0.1", 6000, "Old", [], 0, 0⟩ : HostInfo)) ∉
      cleanupOp 1000 100
        [("old", ⟨"10.0.0.1", 6000, "Old", [], 0, 0⟩),
         ("new", ⟨"10.0.0.2", 6001, "New", [], 950, 900⟩)]
    ∧ alookup "old"
        (listSnap (cleanupOp 1000 100
          [("old", ⟨"10.0.0.1", 6000, "Old", [], 0, 0⟩),
           ("new", ⟨"10.0.0.2", 6001, "New", [], 950, 900⟩)])) = none := by
  constructor
  · exact ((cleanup_evicts_exactly_inactive 1000 100
      [("old", ⟨"10.0.0.1", 6000, "Old", [], 0, 0⟩),
       ("new", ⟨"10.0.0.2", 6001, "New", [], 950, 900⟩)] (by decide)).1
      ("old", ⟨"10.0.0.1", 6000, "Old", [], 0, 0⟩)
      (by decide) (by decide)).1
  · exact ((cleanup_evicts_exactly_inactive 1000 100
      [("old", ⟨"10.0.0.1", 6000, "Old", [], 0, 0⟩),
       ("new", ⟨"10.0.0.2", 6001, "New", [], 950, 900⟩)] (by decide)).2.2.2
      "old" ⟨"10.0.0.1", 6000, "Old", [], 0, 0⟩ (by decide) (by decide)).1

/-- Claim C2: for a registered host `h` and truthy filename `f`, after
PUBLISH(h, f) followed by UNPUBLISH(h, f) the registry still holds the
`FileEntry` for `f` under `h`, with `is_published = false` and
`published_at = none`; REQUEST(f) lists no entry for `h`, DISCOVER(h) and
`h`'s LIST snapshot omit `f`.  A subsequent re-PUBLISH(h, f) makes `f`
visible to all three queries again. -/
theorem publish_unpublish_soft_delete (ci : String) (cp t1 t2 t3 sz md sz2 md2 : Nat)
    (h f : String) (hh : h ≠ "") (hf : f ≠ "")
    (r : Registry) (info : HostInfo)
    (hreg : alookup h r = some info)
    (hnd : (r.map Prod.fst).Nodup)
    (hndf : (info.files.map Prod.fst).Nodup)
    (r1 r2 r3 : Registry)
    (hr1 : r1 = (publishOp ci cp t1 (some h) (some f) sz md r).1)
    (hr2 : r2 = (unpublishOp t2 (some h) (some f) r1).1)
    (hr3 : r3 = (publishOp ci cp t3 (some h) (some f) sz2 md2 r2).1) :
    (unpublishOp t2 (some h) (some f) r1).2 = Resp.ack
    ∧ (∃ info2, alookup h r2 = some info2
        ∧ alookup (some f) info2.files =
            some { size := sz, modified := md, published_at := none,
                   is_published := false })
    ∧ (∀ e ∈ requestHosts (some f) r2, e.hostname ≠ h)
    ∧ (∀ fls ip pt, discoverOp (some h) r2 = Resp.okDiscover fls ip pt →
        alookup (some f) fls = none)
    ∧ (∀ snap, alookup h (listSnap r2) = some snap →
        alookup (some f) snap.files = none)
    ∧ (∃ e ∈ requestHosts (some f) r3,
        e.hostname = h ∧ e.size = sz2 ∧ e.modified = md2)
    ∧ (∀ fls ip pt, discoverOp (some h) r3 = Resp.okDiscover fls ip pt →
        alookup (some f) fls =
          some { size := sz2, modified := md2, published_at := some t3,
                 is_published := true })
    ∧ (∀ snap, alookup h (listSnap r3) = some snap →
        alookup (some f) snap.files =
          some { size := sz2, modified := md2, published_at := some t3,
                 is_published := true }) := by
  have htrh : truthyS (some h) = true := by simp [truthyS, hh]
  have htrf : truthyS (some f) = true := by simp [truthyS, hf]
  have hsome : (alookup h r).isSome = true := by rw [hreg]; rfl
  -- state after PUBLISH
  have hst1 : r1 = amodify h (fun i =>
      { i with files := aupsert (some f) ⟨sz, md, some t1, true⟩ i.files
               last_seen := t1 }) r := by
    rw [hr1]; simp [publishOp, htrh, hsome]
  have hlook1 : alookup h r1 =
      some { info with files := aupsert (some f) ⟨sz, md, some t1, true⟩ info.files
                       last_seen := t1 } := by
    rw [hst1, alookup_amodify_self, hreg]; rfl
  have hf1look : alookup (some f)
      ({ info with files := aupsert (some f) ⟨sz, md, some t1, true⟩ info.files
                   last_seen := t1 } : HostInfo).files =
      some ⟨sz, md, some t1, true⟩ := alookup_aupsert_self _ _ _
  -- state after UNPUBLISH
  have hst2 : r2 = amodify h (fun i =>
      { i with files := amodify (some f)
                 (fun fe => { fe with is_published := false, published_at := none })
                 i.files
               last_seen := t2 }) r1 := by
    rw [hr2]; simp [unpublishOp, htrh, htrf, hlook1, hf1look]
  have hack : (unpublishOp t2 (some h) (some f) r1).2 = Resp.ack := by
    simp [unpublishOp, htrh, htrf, hlook1, hf1look]
  have hlook2 : alookup h r2 = some
      { info with
        files := amodify (some f)
          (fun fe => { fe with is_published := false, published_at := none })
          (aupsert (some f) ⟨sz, md, some t1, true⟩ info.files)
        last_seen := t2 } := by
    rw [hst2, alookup_amodify_self, hlook1]; rfl
  have hf2look : alookup (some f)
      ({ info with
        files := amodify (some f)
          (fun fe => { fe with is_published := false, published_at := none })
          (aupsert (some f) ⟨sz, md, some t1, true⟩ info.files)
        last_seen := t2 } : HostInfo).files =
      some ⟨sz, md, none, false⟩ := by
    show alookup (some f) (amodify (some f) _ (aupsert (some f) _ info.files)) = _
    rw [alookup_amodify_self, alookup_aupsert_self]
    rfl
  -- key structure facts
  have hkeys2 : r2.map Prod.fst = r.map Prod.fst := by
    rw [hst2, hst1, keys_amodify, keys_amodify]
  have hnd2 : (r2.map Prod.fst).Nodup := by rw [hkeys2]; exact hnd
  have hndf2 : ((({ info with
      files := amodify (some f)
        (fun fe => { fe with is_published := false, published_at := none })
        (aupsert (some f) ⟨sz, md, some t1, true⟩ info.files)
      last_seen := t2 } : HostInfo).files).map Prod.fst).Nodup := by
    show ((amodify (some f) _ (aupsert (some f) _ info.files)).map Prod.fst).Nodup
    rw [keys_amodify]
    exact nodup_keys_aupsert _ _ _ hndf
  -- state after re-PUBLISH
  have hsome2 : (alookup h r2).isSome = true := by rw [hlook2]; rfl
  have hst3 : r3 = amodify h (fun i =>
      { i with files := aupsert (some f) ⟨sz2, md2, some t3, true⟩ i.files
               last_seen := t3 }) r2 := by
    rw [hr3]; simp [publishOp, htrh, hsome2]
  have hlook3 : alookup h r3 = some
      { { info with
          files := amodify (some f)
            (fun fe => { fe with is_published := false, published_at := none })
            (aupsert (some f) ⟨sz, md, some t1, true⟩ info.files)
          last_seen := t2 } with
        files := aupsert (some f) ⟨sz2, md2, some t3, true⟩
          ({ info with
            files := amodify (some f)
              (fun fe => { fe with is_published := false, published_at := none })
              (aupsert (some f) ⟨sz, md, some t1, true⟩ info.files)
            last_seen := t2 } : HostInfo).files
        last_seen := t3 } := by
    rw [hst3, alookup_amodify_self, hlook2]; rfl
  have hf3look : ∀ v : HostInfo,
      alookup (some f) (aupsert (some f) (⟨sz2, md2, some t3, true⟩ : FileEntry)
        v.files) = some ⟨sz2, md2, some t3, true⟩ :=
    fun v => alookup_aupsert_self _ _ _
  have hndf3 : ((aupsert (some f) (⟨sz2, md2, some t3, true⟩ : FileEntry)
      ({ info with
        files := amodify (some f)
          (fun fe => { fe with is_published := false, published_at := none })
          (aupsert (some f) ⟨sz, md, some t1, true⟩ info.files)
        last_seen := t2 } : HostInfo).files).map Prod.fst).Nodup :=
    nodup_keys_aupsert _ _ _ hndf2
  refine ⟨hack, ⟨_, hlook2, hf2look⟩, ?_, ?_, ?_, ?_, ?_, ?_⟩
  · -- REQUEST(f) on r2 has no entry for h
    intro e he
    rw [requestHosts_eq_filter_map] at he
    rcases List.mem_map.mp he with ⟨p, hpf, hpe⟩
    have hpin : p ∈ r2 := List.mem_of_mem_filter hpf
    have hppub : isPublisher (some f) p.2 = true := (List.mem_filter.mp hpf).2
    intro hname
    have hp1 : p.1 = h := by
      rw [← hpe] at hname
      simpa [mkReqHost] using hname
    have hmem' : (h, p.2) ∈ r2 := by rw [← hp1]; simpa using hpin
    have hlkp : alookup h r2 = some p.2 :=
      alookup_eq_some_of_mem_of_nodup h p.2 r2 hnd2 hmem'
    rw [hlook2] at hlkp
    have hp2 : p.2 = _ := (Option.some.inj hlkp).symm
    rw [hp2] at hppub
    rw [show isPublisher (some f)
        { info with
          files := amodify (some f)
            (fun fe => { fe with is_published := false, published_at := none })
            (aupsert (some f) ⟨sz, md, some t1, true⟩ info.files)
          last_seen := t2 } = false from by simp [isPublisher, hf2look]] at hppub
    cases hppub
  · -- DISCOVER(h) on r2 omits f
    intro fls ip pt hd
    rw [show discoverOp (some h) r2 = Resp.okDiscover
        ((({ info with
          files := amodify (some f)
            (fun fe => { fe with is_published := false, published_at := none })
            (aupsert (some f) ⟨sz, md, some t1, true⟩ info.files)
          last_seen := t2 } : HostInfo).files).filter fun q => q.2.is_published)
        info.ip info.port from by simp [discoverOp, hlook2]] at hd
    injection hd with hfs hip hpt
    rw [← hfs, alookup_filter _ _ _ hndf2, hf2look]
    rfl
  · -- LIST on r2 omits f for h
    intro snap hsnap
    rw [alookup_listSnap, hlook2] at hsnap
    have hs := (Option.some.inj hsnap).symm
    rw [hs]
    show alookup (some f) (List.filter _ _) = none
    rw [alookup_filter _ _ _ hndf2, hf2look]
    rfl
  · -- REQUEST(f) on r3 lists h with the new size/modified
    cases hlk3 : alookup h r3 with
    | none => rw [hlook3] at hlk3; cases hlk3
    | some info3 =>
      have hfe3 : alookup (some f) info3.files = some ⟨sz2, md2, some t3, true⟩ := by
        rw [hlook3] at hlk3
        rw [← Option.some.inj hlk3]
        exact alookup_aupsert_self _ _ _
      refine ⟨mkReqHost (some f) h info3, ?_, rfl, ?_, ?_⟩
      · rw [requestHosts_eq_filter_map]
        apply List.mem_map.mpr
        refine ⟨(h, info3), ?_, rfl⟩
        apply List.mem_filter.mpr
        exact ⟨mem_of_alookup_eq_some _ _ _ hlk3, by simp [isPublisher, hfe3]⟩
      · simp [mkReqHost, hfe3, defaultFileEntry]
      · simp [mkReqHost, hfe3, defaultFileEntry]
  · -- DISCOVER(h) on r3 shows the republished entry
    intro fls ip pt hd
    rw [show discoverOp (some h) r3 = Resp.okDiscover
        ((aupsert (some f) (⟨sz2, md2, some t3, true⟩ : FileEntry)
          ({ info with
            files := amodify (some f)
              (fun fe => { fe with is_published := false, published_at := none })
              (aupsert (some f) ⟨sz, md, some t1, true⟩ info.files)
            last_seen := t2 } : HostInfo).files).filter fun q => q.2.is_published)
        info.ip info.port from by simp [discoverOp, hlook3]] at hd
    injection hd with hfs hip hpt
    rw [← hfs, alookup_filter _ _ _ hndf3, alookup_aupsert_self]
    rfl
  · -- LIST on r3 shows the republished entry
    intro snap hsnap
    rw [alookup_listSnap, hlook3] at hsnap
    have hs := (Option.some.inj hsnap).symm
    rw [hs]
    show alookup (some f) (List.filter _ _) = _
    rw [alookup_filter _ _ _ hndf3, alookup_aupsert_self]
    rfl

/-- Witness for C2: concrete run on a one-host registry — after publish then
unpublish the file's REQUEST(f) response lists nobody, and the soft-deleted
entry is retained. -/
theorem publish_unpublish_soft_delete_witness :
    (unpublishOp 2 (some "alice") (some "doc")
        (publishOp "10.0.0.9" 5 1 (some "alice") (some "doc") 10 20
          [("alice", ⟨"10.0.0.1", 6000, "Alice", [], 0, 0⟩)]).1).2 = Resp.ack := by
  exact (publish_unpublish_soft_delete "10.0.0.9" 5 1 2 3 10 20 30 40
    "alice" "doc" (by decide) (by decide)
    [("alice", ⟨"10.0.0.1", 6000, "Alice", [], 0, 0⟩)]
    ⟨"10.0.0.1", 6000, "Alice", [], 0, 0⟩ (by decide) (by decide) (by decide)
    _ _ _ rfl rfl rfl).1

/-- Claim C8, counterexample: re-registering hostname "a" with identical
port, display name and files-metadata snapshot at a later time (t=1 after
t=0) changes the LIST result — the snapshot's `last_seen` and `connected_at`
move to the re-registration time — so "leaves the results of subsequent
REQUEST and LIST queries unchanged" is false as stated. -/
theorem register_reregister_counterexample :
    listOp (registerOp "10.0.0.1" 1 ⟨some "a", some 7, none, []⟩
        (registerOp "10.0.0.1" 0 ⟨some "a", some 7, none, []⟩ []).1).1
      ≠ listOp (registerOp "10.0.0.1" 0 ⟨some "a", some 7, none, []⟩ []).1 := by
  decide

/-- Claim C8, amended: re-registering the same hostname with the identical
port, display name and files-metadata snapshot leaves every subsequent
REQUEST result unchanged, and changes the LIST snapshot only at the
re-registered host's row: the new snapshot is exactly the old one with that
host's `last_seen`/`connected_at` replaced by the re-registration time
(every other host's row looks up unchanged), and the re-registered host's
row is its old row with only those two timestamps moved.  A failed REGISTER
(missing/falsy hostname or port) leaves the registry untouched both times. -/
theorem register_reregister_amended (ci : String) (t1 t2 : Nat)
    (msg : RegisterMsg) (r : Registry) :
    (∀ f?, requestOp f? (registerOp ci t2 msg (registerOp ci t1 msg r).1).1
        = requestOp f? (registerOp ci t1 msg r).1)
    ∧ ((truthyS msg.hostname && truthyN msg.port) = true →
        listSnap (registerOp ci t2 msg (registerOp ci t1 msg r).1).1 =
          amodify (msg.hostname.getD "")
            (fun e => { e with last_seen := t2, connected_at := t2 })
            (listSnap (registerOp ci t1 msg r).1)
        ∧ alookup (msg.hostname.getD "")
            (listSnap (registerOp ci t2 msg (registerOp ci t1 msg r).1).1) =
          (alookup (msg.hostname.getD "")
            (listSnap (registerOp ci t1 msg r).1)).map
            (fun e => { e with last_seen := t2, connected_at := t2 })
        ∧ (∀ h', h' ≠ msg.hostname.getD "" →
            alookup h'
              (listSnap (registerOp ci t2 msg (registerOp ci t1 msg r).1).1) =
            alookup h' (listSnap (registerOp ci t1 msg r).1)))
    ∧ ((truthyS msg.hostname && truthyN msg.port) = false →
        (registerOp ci t2 msg (registerOp ci t1 msg r).1).1 =
          (registerOp ci t1 msg r).1
        ∧ (registerOp ci t1 msg r).1 = r) := by
  by_cases hc : (truthyS msg.hostname && truthyN msg.port) = true
  · have h1 : (registerOp ci t1 msg r).1 = aupsert (msg.hostname.getD "")
        { ip := ci, port := msg.port.getD 0
          display_name := msg.display_name.getD (msg.hostname.getD "")
          files := seedFiles msg.files_metadata
          last_seen := t1, connected_at := t1 } r := by
      simp [registerOp, hc]
    have h2 : (registerOp ci t2 msg (registerOp ci t1 msg r).1).1 =
        aupsert (msg.hostname.getD "")
        { ip := ci, port := msg.port.getD 0
          display_name := msg.display_name.getD (msg.hostname.getD "")
          files := seedFiles msg.files_metadata
          last_seen := t2, connected_at := t2 } r := by
      rw [show (registerOp ci t2 msg (registerOp ci t1 msg r).1).1 =
          aupsert (msg.hostname.getD "")
          { ip := ci, port := msg.port.getD 0
            display_name := msg.display_name.getD (msg.hostname.getD "")
            files := seedFiles msg.files_metadata
            last_seen := t2, connected_at := t2 } (registerOp ci t1 msg r).1 from by
        simp [registerOp, hc]]
      rw [h1, aupsert_aupsert]
    have hsv : sameView
        { ip := ci, port := msg.port.getD 0
          display_name := msg.display_name.getD (msg.hostname.getD "")
          files := seedFiles msg.files_metadata
          last_seen := t1, connected_at := t1 }
        { ip := ci, port := msg.port.getD 0
          display_name := msg.display_name.getD (msg.hostname.getD "")
          files := seedFiles msg.files_metadata
          last_seen := t2, connected_at := t2 } := ⟨rfl, rfl, rfl, rfl⟩
    have hmain : listSnap (registerOp ci t2 msg (registerOp ci t1 msg r).1).1 =
        amodify (msg.hostname.getD "")
          (fun e => { e with last_seen := t2, connected_at := t2 })
          (listSnap (registerOp ci t1 msg r).1) := by
      rw [h2, h1]
      exact listSnap_aupsert_retime _ _ _ hsv r
    refine ⟨?_, fun _ => ⟨hmain, ?_, ?_⟩, fun hcf => absurd hc (by simp [hcf])⟩
    · intro f?
      rw [h2, h1]
      exact requestOp_congr f? _ _ (requestHosts_aupsert_congr f? _ _ _ hsv r)
    · rw [hmain, alookup_amodify_self]
    · intro h' hne
      rw [hmain, alookup_amodify_ne _ _ _ _ hne]
  · have h1 : (registerOp ci t1 msg r).1 = r := by simp [registerOp, hc]
    have h2 : (registerOp ci t2 msg (registerOp ci t1 msg r).1).1 =
        (registerOp ci t1 msg r).1 := by simp [registerOp, hc]
    refine ⟨fun f? => by rw [h2], fun hct => absurd hct hc, fun _ => ⟨h2, h1⟩⟩

/-- Witness for the amended C8: re-registering "a" (t=0 then t=1) next to an
untouched host "b" — the new LIST snapshot is the old one with only row "a"
retimed to 1, row "b" looks up unchanged, and REQUEST output is identical. -/
theorem register_reregister_amended_witness :
    listSnap (registerOp "10.0.0.1" 1 ⟨some "a", some 7, none, []⟩
        (registerOp "10.0.0.1" 0 ⟨some "a", some 7, none, []⟩
          [("b", ⟨"10.0.0.2", 8, "Bee", [], 5, 5⟩)]).1).1 =
      amodify "a" (fun e => { e with last_seen := 1, connected_at := 1 })
        (listSnap (registerOp "10.0.0.1" 0 ⟨some "a", some 7, none, []⟩
          [("b", ⟨"10.0.0.2", 8, "Bee", [], 5, 5⟩)]).1)
    ∧ alookup "b"
        (listSnap (registerOp "10.0.0.1" 1 ⟨some "a", some 7, none, []⟩
          (registerOp "10.0.0.1" 0 ⟨some "a", some 7, none, []⟩
            [("b", ⟨"10.0.0.2", 8, "Bee", [], 5, 5⟩)]).1).1) =
      alookup "b"
        (listSnap (registerOp "10.0.0.1" 0 ⟨some "a", some 7, none, []⟩
          [("b", ⟨"10.0.0.2", 8, "Bee", [], 5, 5⟩)]).1) := by
  constructor
  · exact ((register_reregister_amended "10.0.0.1" 0 1 ⟨some "a", some 7, none, []⟩
      [("b", ⟨"10.0.0.2", 8, "Bee", [], 5, 5⟩)]).2.1 (by decide)).1
  · exact ((register_reregister_amended "10.0.0.1" 0 1 ⟨some "a", some 7, none, []⟩
      [("b", ⟨"10.0.0.2", 8, "Bee", [], 5, 5⟩)]).2.1 (by decide)).2.2 "b" (by decide)

end P2P
